import Mathlib

/- Verification development for the Polymarket active-users analysis pipeline.
   The definitions below are shallow embeddings of the Python sources:
   the rate-limited trade scanner (chunk2_fetch_and_parse_data.py), the
   per-user position profit aggregation (chunk3_userpos.py), the final
   analysis pipeline (chunk4_final_analysis.py) and the batch-granular
   diagnostic scanner (diagnositc/diagnostic_10000_trades.py).
   Machine floats of the source are idealized as rationals; external HTTP
   traffic is modelled by explicit outcome streams fed to the loops. -/

namespace Polymarket

/-- One trade record of the feed.  A field of value `none` models a JSON
key that is absent or bound to null; `some ""` models an empty string. -/
structure Trade where
  timestamp : Int
  proxyWallet : Option String
  name : Option String
  pseudonym : Option String
deriving DecidableEq

/-- Python truthiness of `trade.get(field, '')` followed by `or`:
an absent, null or empty string falls through to the next alternative. -/
def strOrElse (o : Option String) (d : String) : String :=
  match o with
  | some s => if s == "" then d else s
  | none => d

/-- Fallback chain of the sources: `trade.get('name','') or
trade.get('pseudonym','') or 'Anonymous'`. -/
def fallbackName (t : Trade) : String :=
  strOrElse t.name (strOrElse t.pseudonym "Anonymous")

/-- Truthy wallet id: `if proxy_wallet:` accepts only a present, non-empty
string. -/
def walletOf (t : Trade) : Option String :=
  match t.proxyWallet with
  | some w => if w == "" then none else some w
  | none => none

/-- Python `set.add`, modelled on lists up to membership. -/
def addUser (users : List String) (w : String) : List String :=
  if users.contains w then users else users ++ [w]

/-- Lookup in an insertion-ordered association list (a Python dict). -/
def lookupKey {α : Type} : List (String × α) → String → Option α
  | [], _ => none
  | (k, v) :: rest, w => if k == w then some v else lookupKey rest w

/-- Python `key in dict`. -/
def containsKey {α : Type} (m : List (String × α)) (w : String) : Bool :=
  (lookupKey m w).isSome

/-- Python `defaultdict(int)` update `m[w] += 1`: increments in place, or
appends a fresh entry with count 1 (insertion order preserved). -/
def bumpCount : List (String × Nat) → String → List (String × Nat)
  | [], w => [(w, 1)]
  | (k, v) :: rest, w =>
      if k == w then (k, v + 1) :: rest else (k, v) :: bumpCount rest w

/-- Python `if w not in d: d[w] = v` on an insertion-ordered dict. -/
def setName (m : List (String × String)) (w v : String) :
    List (String × String) :=
  if containsKey m w then m else m ++ [(w, v)]

/-- Accumulators of `scan_all_recent_trades_with_rate_limiting`
(chunk2, lines 92-105). -/
structure ScanState where
  activeUsers : List String
  userTradeCounts : List (String × Nat)
  userNames : List (String × String)
  consecutiveOldTrades : Nat
  recentTradesFound : Nat
  totalTradesProcessed : Nat
deriving DecidableEq

def initScanState : ScanState := ⟨[], [], [], 0, 0, 0⟩

/-- Body of the `for trade in trades` loop of
`scan_all_recent_trades_with_rate_limiting` (chunk2, lines 167-186). -/
def processTrade (cutoff : Int) (st : ScanState) (t : Trade) : ScanState :=
  let st := { st with totalTradesProcessed := st.totalTradesProcessed + 1 }
  if cutoff ≤ t.timestamp then
    let st := { st with recentTradesFound := st.recentTradesFound + 1,
                        consecutiveOldTrades := 0 }
    match walletOf t with
    | some w =>
        { st with activeUsers := addUser st.activeUsers w,
                  userTradeCounts := bumpCount st.userTradeCounts w,
                  userNames := setName st.userNames w (fallbackName t) }
    | none => st
  else
    { st with consecutiveOldTrades := st.consecutiveOldTrades + 1 }

/-- Processing of one page of trades (chunk2, lines 164-186). -/
def processPage (cutoff : Int) (st : ScanState) (trades : List Trade) :
    ScanState :=
  trades.foldl (processTrade cutoff) st

/-- Outcome of one HTTP attempt inside `make_request_with_backoff`:
HTTP 200, HTTP 429 with optional Retry-After header, another status
code, or a raised exception (timeout, connection error). -/
inductive HttpOutcome where
  | ok
  | throttled (retryAfter : Option Nat)
  | otherStatus
  | exn
deriving DecidableEq

/-- Result of `make_request_with_backoff`: the returned response status
(`none` models returning Python `None`), the scanner's `current_delay`
after the call, the sleeps performed inside the call in order, and the
number of attempts consumed. -/
structure ReqResult where
  status : Option Nat
  finalDelay : ℚ
  sleeps : List ℚ
  attemptsUsed : Nat
deriving DecidableEq

def baseDelay : ℚ := 1/2
def maxDelay : ℚ := 10
def backoffMultiplier : ℚ := 2
def successDelayReduction : ℚ := 9/10

/-- The `for attempt in range(max_retries)` loop of
`make_request_with_backoff` (chunk2, lines 33-82).  `responses i` is the
outcome of the i-th attempt, `d` the scanner's `current_delay`,
`sleeps` the sleeps so far (reversed), and the last argument the number
of remaining attempts. -/
def makeRequestAux (responses : Nat → HttpOutcome) (attempt : Nat) (d : ℚ)
    (sleeps : List ℚ) : Nat → ReqResult
  | 0 => ⟨none, d, sleeps.reverse, attempt⟩
  | remaining + 1 =>
    match responses attempt with
    | .ok =>
        ⟨some 200, max baseDelay (d * successDelayReduction),
         sleeps.reverse, attempt + 1⟩
    | .throttled hint =>
        match hint with
        | some ra =>
            if 0 < remaining then
              makeRequestAux responses (attempt + 1) d
                ((ra : ℚ) :: sleeps) remaining
            else ⟨none, d, sleeps.reverse, attempt + 1⟩
        | none =>
            let waitTime := d * backoffMultiplier
            let d' := min maxDelay waitTime
            if 0 < remaining then
              makeRequestAux responses (attempt + 1) d'
                (waitTime :: sleeps) remaining
            else ⟨none, d', sleeps.reverse, attempt + 1⟩
    | .otherStatus =>
        if 0 < remaining then
          makeRequestAux responses (attempt + 1) d (d :: sleeps) remaining
        else ⟨none, d, sleeps.reverse, attempt + 1⟩
    | .exn =>
        if 0 < remaining then
          makeRequestAux responses (attempt + 1) d (d :: sleeps) remaining
        else ⟨none, d, sleeps.reverse, attempt + 1⟩

/-- `make_request_with_backoff(url, params, max_retries)` called with the
scanner's `current_delay` equal to `d`. -/
def make_request_with_backoff (responses : Nat → HttpOutcome) (d : ℚ)
    (maxRetries : Nat) : ReqResult :=
  makeRequestAux responses 0 d [] maxRetries

/-- The body of a 200 response as seen by the scanner: either a JSON
decoding failure (or any processing exception) or a list of trades. -/
inductive BodyResult where
  | badJson
  | trades (ts : List Trade)

/-- One scanner-level call to the upstream: the per-attempt HTTP
outcomes inside `make_request_with_backoff`, and the body delivered when
the call returns a 200 response. -/
structure CallSpec where
  responses : Nat → HttpOutcome
  body : BodyResult

/-- Loop-level state of `scan_all_recent_trades_with_rate_limiting`
(chunk2, lines 92-107 together with the scanner's `current_delay`). -/
structure LoopState where
  scan : ScanState
  offset : Nat
  currentDelay : ℚ
  totalApiCalls : Nat
  successfulCalls : Nat
  failedCalls : Nat
  rateLimitHits : Nat
deriving DecidableEq

def initLoopState : LoopState := ⟨initScanState, 0, baseDelay, 0, 0, 0, 0⟩

/-- Why the scan loop ended.  `fuelOut` is the artifact of bounding the
`while True` loop by explicit fuel. -/
inductive StopReason where
  | failureBudget
  | emptyPage
  | window
  | fuelOut
deriving DecidableEq

def pageLimit : Nat := 500

/-- The `while True` loop of `scan_all_recent_trades_with_rate_limiting`
(chunk2, lines 109-206).  `feed n` describes the n-th upstream call. -/
def scanLoop (cutoff : Int) (feed : Nat → CallSpec) :
    Nat → LoopState → LoopState × StopReason
  | 0, ls => (ls, .fuelOut)
  | fuel + 1, ls =>
    let call := feed ls.totalApiCalls
    let req := make_request_with_backoff call.responses ls.currentDelay 5
    let ls1 := { ls with totalApiCalls := ls.totalApiCalls + 1,
                         currentDelay := req.finalDelay }
    match req.status with
    | none =>
        let ls2 := { ls1 with failedCalls := ls1.failedCalls + 1 }
        if 5 ≤ ls2.failedCalls then (ls2, .failureBudget)
        else scanLoop cutoff feed fuel
          { ls2 with offset := ls2.offset + pageLimit }
    | some code =>
        let ls2 := if code == 429 then
            { ls1 with rateLimitHits := ls1.rateLimitHits + 1 } else ls1
        let ls3 := { ls2 with successfulCalls := ls2.successfulCalls + 1 }
        match call.body with
        | .badJson =>
            scanLoop cutoff feed fuel
              { ls3 with failedCalls := ls3.failedCalls + 1 }
        | .trades [] => (ls3, .emptyPage)
        | .trades ts =>
            let ls4 := { ls3 with scan := processPage cutoff ls3.scan ts }
            if 2500 ≤ ls4.scan.consecutiveOldTrades then (ls4, .window)
            else scanLoop cutoff feed fuel
              { ls4 with offset := ls4.offset + pageLimit }

/-- Accumulators of `scan_for_active_users` (chunk4, lines 22-41).  The
actor maps are instance state of the analyzer, shared with the later
pipeline stages. -/
structure Scan4State where
  activeUsers : List String
  userTradeCounts : List (String × Nat)
  userNames : List (String × String)
  tradesScanned : Nat
deriving DecidableEq

def initScan4State : Scan4State := ⟨[], [], [], 0⟩

/-- Effect of one in-window trade in `scan_for_active_users` (chunk4,
lines 77-92): the actor maps are updated for a truthy wallet, and
`trades_scanned` always advances. -/
def step4 (st : Scan4State) (t : Trade) : Scan4State :=
  let st :=
    match walletOf t with
    | some w =>
        { st with activeUsers := addUser st.activeUsers w,
                  userTradeCounts := bumpCount st.userTradeCounts w,
                  userNames := setName st.userNames w (fallbackName t) }
    | none => st
  { st with tradesScanned := st.tradesScanned + 1 }

/-- The `for trade in trades` loop of `scan_for_active_users` (chunk4,
lines 69-92).  The Boolean records whether the method returned early at
a record older than the cutoff (chunk4, lines 73-75). -/
def processTrades4 (cutoff : Int) (st : Scan4State) :
    List Trade → Scan4State × Bool
  | [] => (st, false)
  | t :: rest =>
    if t.timestamp < cutoff then (st, true)
    else processTrades4 cutoff (step4 st t) rest

/-- One page fetch of `scan_for_active_users`: a non-200 status or a
raised exception, or a decoded list of trades. -/
inductive Page4 where
  | fetchError
  | fetched (ts : List Trade)

/-- The `while trades_scanned < max_trades_to_scan` loop of
`scan_for_active_users` (chunk4, lines 42-106), with pages indexed by
their position in the feed. -/
def scan4Loop (cutoff : Int) (maxScan : Nat) (feed : Nat → Page4) :
    Nat → Scan4State → Nat → Scan4State
  | 0, st, _ => st
  | fuel + 1, st, pageIdx =>
    if st.tradesScanned < maxScan then
      match feed pageIdx with
      | .fetchError => st
      | .fetched [] => st
      | .fetched ts =>
          match processTrades4 cutoff st ts with
          | (st', true) => st'
          | (st', false) => scan4Loop cutoff maxScan feed fuel st' (pageIdx + 1)
    else st

/-- Accumulators of the diagnostic scanner
(diagnositc/diagnostic_10000_trades.py, lines 20-36). -/
structure DiagState where
  totalTradesFetched : Nat
  recentTradesCount : Nat
  oldTradesCount : Nat
  activeUsers : List String
  consecutiveOldBatches : Nat
deriving DecidableEq

def initDiagState : DiagState := ⟨0, 0, 0, [], 0⟩

/-- Per-record work of the diagnostic batch loop
(diagnostic_10000_trades.py, lines 74-92). -/
def diagProcessTrade (cutoff : Int) (st : DiagState) (t : Trade) : DiagState :=
  if cutoff ≤ t.timestamp then
    let st := { st with recentTradesCount := st.recentTradesCount + 1 }
    match walletOf t with
    | some w => { st with activeUsers := addUser st.activeUsers w }
    | none => st
  else
    { st with oldTradesCount := st.oldTradesCount + 1 }

/-- `batch_recent` of the diagnostic scanner: the number of in-window
records of the batch. -/
def diagBatchRecent (cutoff : Int) (batch : List Trade) : Nat :=
  (batch.filter (fun t => decide (cutoff ≤ t.timestamp))).length

/-- One batch of `scan_with_detailed_logging`
(diagnostic_10000_trades.py, lines 65-111): process the records, then
update `consecutive_old_batches` and decide the window stop.  The
Boolean is true when the scan breaks with the consecutive-old-batches
message (lines 107-109). -/
def diagProcessBatch (cutoff : Int) (st : DiagState) (batch : List Trade) :
    DiagState × Bool :=
  let st := { st with totalTradesFetched := st.totalTradesFetched + batch.length }
  let st := batch.foldl (diagProcessTrade cutoff) st
  if diagBatchRecent cutoff batch == 0 then
    let st := { st with consecutiveOldBatches := st.consecutiveOldBatches + 1 }
    (st, 3 ≤ st.consecutiveOldBatches)
  else
    ({ st with consecutiveOldBatches := 0 }, false)

/-- Raw shape of a numeric JSON field of a position record: absent key,
null, a number, a string that parses as a number, an empty string, a
non-empty string that does not parse, or a truthy value of another type
(list, dict, ...). -/
inductive RawNum where
  | absent
  | null
  | num (q : ℚ)
  | numStr (q : ℚ)
  | emptyStr
  | badStr
  | otherObj
deriving DecidableEq

/-- One attempted field coercion of `calculate_user_profit` (chunk3,
lines 199-205): `float(raw) if raw else 0`.  `none` models a raised
`ValueError`/`TypeError`. -/
def coerceField : RawNum → Option ℚ
  | .absent => some 0
  | .null => some 0
  | .num q => some q
  | .numStr q => some q
  | .emptyStr => some 0
  | .badStr => none
  | .otherObj => none

/-- One position record, restricted to the four numeric fields read by
`calculate_user_profit`. -/
structure Position where
  cashPnl : RawNum
  percentPnl : RawNum
  initialValue : RawNum
  currentValue : RawNum
deriving DecidableEq

/-- The four sequential coercions of chunk3 lines 198-205, wrapped in a
single `try`: if any of the four raises, the `except` clause resets all
four values to 0. -/
def normalizePosition (p : Position) : ℚ × ℚ × ℚ × ℚ :=
  match coerceField p.cashPnl, coerceField p.percentPnl,
        coerceField p.initialValue, coerceField p.currentValue with
  | some a, some b, some c, some d => (a, b, c, d)
  | _, _, _, _ => (0, 0, 0, 0)

/-- Result dictionary of `calculate_user_profit` (chunk3, lines 227-237). -/
structure ProfitSummary where
  totalCashPnl : ℚ
  totalPercentPnl : ℚ
  profitablePositions : Nat
  losingPositions : Nat
  totalPositions : Nat
  biggestWin : ℚ
  biggestLoss : ℚ
  totalInitialValue : ℚ
  totalCurrentValue : ℚ
deriving DecidableEq

def emptySummary : ProfitSummary := ⟨0, 0, 0, 0, 0, 0, 0, 0, 0⟩

/-- Body of the `for i, position in enumerate(positions)` loop of
`calculate_user_profit` (chunk3, lines 191-217). -/
def accumPosition (s : ProfitSummary) (p : Position) : ProfitSummary :=
  match normalizePosition p with
  | (cashPnl, percentPnl, initialValue, currentValue) =>
    let s := { s with totalCashPnl := s.totalCashPnl + cashPnl,
                      totalPercentPnl := s.totalPercentPnl + percentPnl,
                      totalInitialValue := s.totalInitialValue + initialValue,
                      totalCurrentValue := s.totalCurrentValue + currentValue }
    if 0 < cashPnl then
      { s with profitablePositions := s.profitablePositions + 1,
               biggestWin := max s.biggestWin cashPnl }
    else if cashPnl < 0 then
      { s with losingPositions := s.losingPositions + 1,
               biggestLoss := min s.biggestLoss cashPnl }
    else s

/-- `calculate_user_profit(positions)` (chunk3, lines 165-248): the
empty list short-circuits to the all-zero dictionary, otherwise the
positions are folded and `total_positions` is the list length. -/
def calculate_user_profit (positions : List Position) : ProfitSummary :=
  if positions.isEmpty then emptySummary
  else { positions.foldl accumPosition emptySummary with
           totalPositions := positions.length }

/-- Contribution of one raw `cashPnl` value in `analyze_user_profit`
(chunk4, lines 131-137): an `isinstance (str,int,float)` guard, then
`float(cash_pnl) if cash_pnl else 0` with `except: pass`. -/
def cashPnlContrib4 : RawNum → ℚ
  | .absent => 0
  | .null => 0
  | .num q => q
  | .numStr q => q
  | .emptyStr => 0
  | .badStr => 0
  | .otherObj => 0

/-- Outcome of the positions fetch inside `analyze_user_profit`: a 200
response carrying the raw `cashPnl` values, a non-200 status, or a
raised exception. -/
inductive FetchOutcome where
  | ok (cashPnls : List RawNum)
  | httpError
  | exn

/-- `analyze_user_profit(user_address)` (chunk4, lines 111-145): a
non-200 response returns 0, an exception returns 0, and a 200 response
sums the coerced `cashPnl` values. -/
def analyze_user_profit : FetchOutcome → ℚ
  | .ok ps => ps.foldl (fun acc r => acc + cashPnlContrib4 r) 0
  | .httpError => 0
  | .exn => 0

/-- One entry of `self.profitable_users` (chunk4, lines 180-185). -/
structure UserData where
  address : String
  profit : ℚ
  trade_count : Nat
  display_name : String
deriving DecidableEq

/-- Stable insertion of `x` into a list sorted descending by `k`: `x`
goes after every earlier element with an equal or larger key.  This is
the insertion step of the stable descending sort below. -/
def insertGeBy {α β : Type} [LinearOrder β] (k : α → β) (x : α) :
    List α → List α
  | [] => [x]
  | y :: ys => if k y ≤ k x then x :: y :: ys else y :: insertGeBy k x ys

/-- Model of Python `sorted(l, key=k, reverse=True)`: a stable sort,
descending in `k`.  (Stability and sortedness, the two properties that
characterize Python's sort, are proved below.) -/
def sortDescBy {α β : Type} [LinearOrder β] (k : α → β) (l : List α) :
    List α :=
  l.foldr (insertGeBy k) []

/-- `find_profitable_users(profit_threshold, max_users_to_check)`
(chunk4, lines 147-194).  `counts` and `names` are the scanner's maps,
`profitOf` gives each actor's `analyze_user_profit` result.  A falsy
`max_users_to_check` (None or 0) disables the truncation. -/
def find_profitable_users (counts : List (String × Nat))
    (names : List (String × String)) (profitOf : String → ℚ)
    (threshold : ℚ) (maxUsers : Option Nat) : List UserData :=
  let sortedUsers := sortDescBy (fun p => p.2) counts
  let toCheck := match maxUsers with
    | some n => if n = 0 then sortedUsers else sortedUsers.take n
    | none => sortedUsers
  toCheck.filterMap (fun p =>
    let profit := profitOf p.1
    if threshold < profit then
      some ⟨p.1, profit, p.2, (lookupKey names p.1).getD "Anonymous"⟩
    else none)

/-- The ranking applied by `generate_detailed_report` (chunk4, line 228)
and by the CSV writer of `run_full_analysis` (chunk4, lines 369-370):
`sorted(profitable_users, key=lambda x: x['profit'], reverse=True)`. -/
def rank_profitable_users (users : List UserData) : List UserData :=
  sortDescBy (fun u => u.profit) users

/- Concrete example values shared by several checks. -/

def tradeNew : Trade := ⟨20, some "w1", some "Alice", none⟩
def tradeOld : Trade := ⟨0, some "w2", none, none⟩

/-- Attempt outcomes of the C2 scenario: three HTTP 429 responses
without a Retry-After header, then an HTTP 200. -/
def throttleThriceFeed : Nat → HttpOutcome :=
  fun i => if i < 3 then .throttled none else .ok

/-- Claim C2 counterexample: with base delay 0.5s, multiplier 2, max
delay 10s and maxRetries = 5, three consecutive 429 responses without a
Retry-After header followed by a 200 make the request succeed on the
4th attempt, but the observed sleep sequence is not 0.5s, 1.0s, 2.0s as
the claim states. -/
theorem backoff_sleep_sequence_cex :
    (make_request_with_backoff throttleThriceFeed baseDelay 5).status = some 200
    ∧ (make_request_with_backoff throttleThriceFeed baseDelay 5).attemptsUsed = 4
    ∧ (make_request_with_backoff throttleThriceFeed baseDelay 5).sleeps
        ≠ [1/2, 1, 2] := by
  norm_num [make_request_with_backoff, makeRequestAux, throttleThriceFeed,
    baseDelay, backoffMultiplier, maxDelay, successDelayReduction, min_def, max_def]

/-- Claim C2 (amended): in the scenario of the claim the code multiplies
the delay before sleeping, so the sleep sequence observed by the caller
is 1.0s, 2.0s, 4.0s, and the request succeeds on the 4th attempt. -/
theorem backoff_sleep_sequence_amended :
    (make_request_with_backoff throttleThriceFeed baseDelay 5).sleeps = [1, 2, 4]
    ∧ (make_request_with_backoff throttleThriceFeed baseDelay 5).status = some 200
    ∧ (make_request_with_backoff throttleThriceFeed baseDelay 5).attemptsUsed = 4 := by
  norm_num [make_request_with_backoff, makeRequestAux, throttleThriceFeed,
    baseDelay, backoffMultiplier, maxDelay, successDelayReduction, min_def, max_def]

theorem processTrade_consecutiveOldTrades (cutoff : Int) (st : ScanState)
    (t : Trade) :
    (processTrade cutoff st t).consecutiveOldTrades
      = if cutoff ≤ t.timestamp then 0 else st.consecutiveOldTrades + 1 := by
  simp only [processTrade]
  by_cases h : cutoff ≤ t.timestamp
  · simp only [if_pos h]
    cases walletOf t <;> rfl
  · simp only [if_neg h]

theorem processPage_consecutiveOldTrades (cutoff : Int) (page : List Trade) :
    ∀ st : ScanState, (processPage cutoff st page).consecutiveOldTrades
      = page.foldl (fun c t => if cutoff ≤ t.timestamp then 0 else c + 1)
          st.consecutiveOldTrades := by
  induction page with
  | nil => intro st; rfl
  | cons t rest ih =>
    intro st
    show (processPage cutoff (processTrade cutoff st t) rest).consecutiveOldTrades = _
    rw [ih, processTrade_consecutiveOldTrades, List.foldl_cons]

theorem diagProcessTrade_consecutiveOldBatches (cutoff : Int) (st : DiagState)
    (t : Trade) :
    (diagProcessTrade cutoff st t).consecutiveOldBatches
      = st.consecutiveOldBatches := by
  simp only [diagProcessTrade]
  by_cases h : cutoff ≤ t.timestamp
  · simp only [if_pos h]
    cases walletOf t <;> rfl
  · simp only [if_neg h]

theorem diag_foldl_consecutiveOldBatches (cutoff : Int) (batch : List Trade) :
    ∀ st : DiagState,
      (batch.foldl (diagProcessTrade cutoff) st).consecutiveOldBatches
        = st.consecutiveOldBatches := by
  induction batch with
  | nil => intro st; rfl
  | cons t rest ih =>
    intro st
    rw [List.foldl_cons, ih, diagProcessTrade_consecutiveOldBatches]

theorem diagBatchRecent_zero_iff (cutoff : Int) (batch : List Trade) :
    diagBatchRecent cutoff batch = 0
      ↔ batch.any (fun t => decide (cutoff ≤ t.timestamp)) = false := by
  simp [diagBatchRecent, List.length_eq_zero, List.filter_eq_nil_iff,
    List.any_eq_false]

/-- Claim C1 (amended): in the record-granular scanner the
consecutive-old counter is reset per record, not per page — after a
page it equals the fold that resets at each in-window record and adds 1
per out-of-window record, so a page containing an in-window record can
still leave the counter nonzero (the trailing old records count), and
the 2500-threshold is tested against this value after the whole page.
In the batch-granular diagnostic variant the claim holds as stated: the
counter resets to 0 whenever the batch contains an in-window record,
otherwise increments by 1, and the stop flag is raised exactly when the
new value reaches 3. -/
theorem consecutive_old_counter_semantics :
    (∀ (cutoff : Int) (st : ScanState) (page : List Trade),
       (processPage cutoff st page).consecutiveOldTrades
         = page.foldl (fun c t => if cutoff ≤ t.timestamp then 0 else c + 1)
             st.consecutiveOldTrades)
    ∧ (∀ (cutoff : Int) (st : DiagState) (batch : List Trade),
       ((diagProcessBatch cutoff st batch).1.consecutiveOldBatches
          = if batch.any (fun t => decide (cutoff ≤ t.timestamp)) then 0
            else st.consecutiveOldBatches + 1)
       ∧ ((diagProcessBatch cutoff st batch).2
          = decide (3 ≤ (diagProcessBatch cutoff st batch).1.consecutiveOldBatches))) := by
  constructor
  · intro cutoff st page
    exact processPage_consecutiveOldTrades cutoff page st
  · intro cutoff st batch
    by_cases h : diagBatchRecent cutoff batch = 0
    · have hany := (diagBatchRecent_zero_iff cutoff batch).mp h
      simp [diagProcessBatch, h, hany, diag_foldl_consecutiveOldBatches]
    · have hany : batch.any (fun t => decide (cutoff ≤ t.timestamp)) = true := by
        cases hh : batch.any (fun t => decide (cutoff ≤ t.timestamp)) with
        | false => exact absurd ((diagBatchRecent_zero_iff cutoff batch).mpr hh) h
        | true => rfl
      simp [diagProcessBatch, h, hany, diag_foldl_consecutiveOldBatches]

/-- Claim C1 counterexample: a page whose first record is in-window and
whose second is out-of-window leaves the consecutive-old counter at 1,
not 0, although the page contains a record with timestamp at or above
the cutoff — the reset claimed at page granularity does not happen. -/
theorem consecutive_old_counter_page_reset_cex :
    ([tradeNew, tradeOld].any (fun t => decide ((10:Int) ≤ t.timestamp)) = true)
    ∧ (processPage 10 initScanState [tradeNew, tradeOld]).consecutiveOldTrades = 1 := by
  decide

theorem makeRequestAux_status_none_or_200 (responses : Nat → HttpOutcome) :
    ∀ (n a : Nat) (d : ℚ) (s : List ℚ),
      (makeRequestAux responses a d s n).status = none
      ∨ (makeRequestAux responses a d s n).status = some 200 := by
  intro n
  induction n with
  | zero => intro a d s; exact Or.inl rfl
  | succ n ih =>
    intro a d s
    cases hr : responses a with
    | ok =>
      simp only [makeRequestAux, hr]
      exact Or.inr trivial
    | throttled hint =>
      cases hint with
      | some ra =>
        simp only [makeRequestAux, hr]
        split
        · exact ih _ _ _
        · exact Or.inl rfl
      | none =>
        simp only [makeRequestAux, hr]
        split
        · exact ih _ _ _
        · exact Or.inl rfl
    | otherStatus =>
      simp only [makeRequestAux, hr]
      split
      · exact ih _ _ _
      · exact Or.inl rfl
    | exn =>
      simp only [makeRequestAux, hr]
      split
      · exact ih _ _ _
      · exact Or.inl rfl

theorem make_request_status_none_or_200 (responses : Nat → HttpOutcome)
    (d : ℚ) (maxRetries : Nat) :
    (make_request_with_backoff responses d maxRetries).status = none
    ∨ (make_request_with_backoff responses d maxRetries).status = some 200 :=
  makeRequestAux_status_none_or_200 responses maxRetries 0 d []

theorem scanLoop_succ_of_status_none (cutoff : Int) (feed : Nat → CallSpec)
    (fuel : Nat) (ls : LoopState)
    (h : (make_request_with_backoff (feed ls.totalApiCalls).responses
            ls.currentDelay 5).status = none) :
    scanLoop cutoff feed (fuel + 1) ls =
      (if 5 ≤ ls.failedCalls + 1 then
        ({ ls with totalApiCalls := ls.totalApiCalls + 1,
                   currentDelay := (make_request_with_backoff
                     (feed ls.totalApiCalls).responses ls.currentDelay 5).finalDelay,
                   failedCalls := ls.failedCalls + 1 }, StopReason.failureBudget)
      else
        scanLoop cutoff feed fuel
          { ls with totalApiCalls := ls.totalApiCalls + 1,
                    currentDelay := (make_request_with_backoff
                      (feed ls.totalApiCalls).responses ls.currentDelay 5).finalDelay,
                    failedCalls := ls.failedCalls + 1,
                    offset := ls.offset + pageLimit }) := by
  simp only [scanLoop, h]

theorem scanLoop_succ_of_badJson (cutoff : Int) (feed : Nat → CallSpec)
    (fuel : Nat) (ls : LoopState)
    (h : (make_request_with_backoff (feed ls.totalApiCalls).responses
            ls.currentDelay 5).status = some 200)
    (hb : (feed ls.totalApiCalls).body = BodyResult.badJson) :
    scanLoop cutoff feed (fuel + 1) ls =
      scanLoop cutoff feed fuel
        { ls with totalApiCalls := ls.totalApiCalls + 1,
                  currentDelay := (make_request_with_backoff
                    (feed ls.totalApiCalls).responses ls.currentDelay 5).finalDelay,
                  successfulCalls := ls.successfulCalls + 1,
                  failedCalls := ls.failedCalls + 1 } := by
  simp only [scanLoop, h, hb]
  rfl

theorem scanLoop_succ_of_empty (cutoff : Int) (feed : Nat → CallSpec)
    (fuel : Nat) (ls : LoopState)
    (h : (make_request_with_backoff (feed ls.totalApiCalls).responses
            ls.currentDelay 5).status = some 200)
    (hb : (feed ls.totalApiCalls).body = BodyResult.trades []) :
    scanLoop cutoff feed (fuel + 1) ls =
      ({ ls with totalApiCalls := ls.totalApiCalls + 1,
                 currentDelay := (make_request_with_backoff
                   (feed ls.totalApiCalls).responses ls.currentDelay 5).finalDelay,
                 successfulCalls := ls.successfulCalls + 1 },
       StopReason.emptyPage) := by
  simp only [scanLoop, h, hb]
  rfl

theorem scanLoop_succ_of_trades (cutoff : Int) (feed : Nat → CallSpec)
    (fuel : Nat) (ls : LoopState) (t : Trade) (ts : List Trade)
    (h : (make_request_with_backoff (feed ls.totalApiCalls).responses
            ls.currentDelay 5).status = some 200)
    (hb : (feed ls.totalApiCalls).body = BodyResult.trades (t :: ts)) :
    scanLoop cutoff feed (fuel + 1) ls =
      (if 2500 ≤ (processPage cutoff ls.scan (t :: ts)).consecutiveOldTrades then
        ({ ls with scan := processPage cutoff ls.scan (t :: ts),
                   totalApiCalls := ls.totalApiCalls + 1,
                   currentDelay := (make_request_with_backoff
                     (feed ls.totalApiCalls).responses ls.currentDelay 5).finalDelay,
                   successfulCalls := ls.successfulCalls + 1 }, StopReason.window)
      else
        scanLoop cutoff feed fuel
          { ls with scan := processPage cutoff ls.scan (t :: ts),
                    totalApiCalls := ls.totalApiCalls + 1,
                    currentDelay := (make_request_with_backoff
                      (feed ls.totalApiCalls).responses ls.currentDelay 5).finalDelay,
                    successfulCalls := ls.successfulCalls + 1,
                    offset := ls.offset + pageLimit }) := by
  simp only [scanLoop, h, hb]
  rfl

theorem scanLoop_rateLimitHits (cutoff : Int) (feed : Nat → CallSpec) :
    ∀ (fuel : Nat) (ls : LoopState),
      (scanLoop cutoff feed fuel ls).1.rateLimitHits = ls.rateLimitHits := by
  intro fuel
  induction fuel with
  | zero => intro ls; rfl
  | succ fuel ih =>
    intro ls
    rcases make_request_status_none_or_200 (feed ls.totalApiCalls).responses
        ls.currentDelay 5 with h | h
    · rw [scanLoop_succ_of_status_none cutoff feed fuel ls h]
      by_cases hf : 5 ≤ ls.failedCalls + 1
      · rw [if_pos hf]
      · rw [if_neg hf]
        exact ih _
    · cases hb : (feed ls.totalApiCalls).body with
      | badJson =>
        rw [scanLoop_succ_of_badJson cutoff feed fuel ls h hb]
        exact ih _
      | trades ts =>
        cases ts with
        | nil => rw [scanLoop_succ_of_empty cutoff feed fuel ls h hb]
        | cons t ts' =>
          rw [scanLoop_succ_of_trades cutoff feed fuel ls t ts' h hb]
          by_cases hw : 2500 ≤ (processPage cutoff ls.scan (t :: ts')).consecutiveOldTrades
          · rw [if_pos hw]
          · rw [if_neg hw]
            exact ih _

/-- Claim C8: every non-None value returned by
`make_request_with_backoff` carries HTTP status 200 (any 429 or other
non-200 outcome becomes a retry or the None return), and consequently
the scanner's `rate_limit_hits` counter never changes during a scan and
is 0 at every point of a scan started from the initial state. -/
theorem returned_status_200_and_no_rate_limit_hits :
    (∀ (responses : Nat → HttpOutcome) (d : ℚ) (maxRetries : Nat),
       (make_request_with_backoff responses d maxRetries).status = none
       ∨ (make_request_with_backoff responses d maxRetries).status = some 200)
    ∧ (∀ (cutoff : Int) (feed : Nat → CallSpec) (fuel : Nat) (ls : LoopState),
       (scanLoop cutoff feed fuel ls).1.rateLimitHits = ls.rateLimitHits)
    ∧ (∀ (cutoff : Int) (feed : Nat → CallSpec) (fuel : Nat),
       (scanLoop cutoff feed fuel initLoopState).1.rateLimitHits = 0) := by
  refine ⟨make_request_status_none_or_200, scanLoop_rateLimitHits, ?_⟩
  intro cutoff feed fuel
  exact scanLoop_rateLimitHits cutoff feed fuel initLoopState

theorem lookupKey_append {α : Type} (m₁ m₂ : List (String × α)) (w : String) :
    lookupKey (m₁ ++ m₂) w = (lookupKey m₁ w).or (lookupKey m₂ w) := by
  induction m₁ with
  | nil => rfl
  | cons kv rest ih =>
    rcases kv with ⟨k, v⟩
    simp only [List.cons_append, lookupKey]
    split
    · simp
    · exact ih

theorem lookupKey_setName_self (m : List (String × String)) (w v : String) :
    lookupKey (setName m w v) w = (lookupKey m w).or (some v) := by
  simp only [setName, containsKey]
  by_cases h : (lookupKey m w).isSome = true
  · rw [if_pos h, Option.or_of_isSome h]
  · rw [if_neg h, lookupKey_append]
    have h0 : lookupKey m w = none := by
      cases hl : lookupKey m w
      · rfl
      · rw [hl] at h; exact absurd rfl h
    have h1 : lookupKey [(w, v)] w = some v := by simp [lookupKey]
    rw [h0, h1]

theorem lookupKey_setName_ne (m : List (String × String)) (w w' v : String)
    (h : w ≠ w') :
    lookupKey (setName m w v) w' = lookupKey m w' := by
  simp only [setName]
  split
  · rfl
  · rw [lookupKey_append]
    have h1 : lookupKey [(w, v)] w' = none := by simp [lookupKey, h]
    rw [h1, Option.or_none]

/-- An in-window sighting of wallet `w` in the chunk2 scanner. -/
def sightingPred (cutoff : Int) (w : String) (t : Trade) : Bool :=
  decide (cutoff ≤ t.timestamp) && (walletOf t == some w)

theorem lookup_names_foldl (cutoff : Int) (w : String) (ts : List Trade) :
    ∀ st : ScanState,
      lookupKey ((ts.foldl (processTrade cutoff) st).userNames) w
        = (lookupKey st.userNames w).or
            ((ts.find? (sightingPred cutoff w)).map fallbackName) := by
  induction ts with
  | nil => intro st; simp
  | cons t rest ih =>
    intro st
    rw [List.foldl_cons, ih]
    by_cases hts : cutoff ≤ t.timestamp
    · cases hw : walletOf t with
      | some w' =>
        have hn : (processTrade cutoff st t).userNames
            = setName st.userNames w' (fallbackName t) := by
          simp only [processTrade, if_pos hts, hw]
        by_cases hww : w' = w
        · subst hww
          have hpred : sightingPred cutoff w' t = true := by
            simp [sightingPred, hts, hw]
          rw [List.find?_cons_of_pos _ hpred, hn, lookupKey_setName_self,
            Option.or_assoc]
          simp
        · have hpred : ¬ sightingPred cutoff w t = true := by
            simp [sightingPred, hts, hw, hww]
          rw [List.find?_cons_of_neg _ hpred, hn,
            lookupKey_setName_ne _ _ _ _ hww]
      | none =>
        have hn : (processTrade cutoff st t).userNames = st.userNames := by
          simp only [processTrade, if_pos hts, hw]
        have hpred : ¬ sightingPred cutoff w t = true := by
          simp [sightingPred, hts, hw]
        rw [List.find?_cons_of_neg _ hpred, hn]
    · have hn : (processTrade cutoff st t).userNames = st.userNames := by
        simp only [processTrade, if_neg hts]
      have hpred : ¬ sightingPred cutoff w t = true := by
        simp [sightingPred, hts]
      rw [List.find?_cons_of_neg _ hpred, hn]

/-- A sighting of wallet `w` in the chunk4 scanner (the window test is
done by the early return, before this point). -/
def sightingPred4 (w : String) (t : Trade) : Bool :=
  walletOf t == some w

theorem lookup_names_foldl4 (w : String) (ts : List Trade) :
    ∀ st : Scan4State,
      lookupKey ((ts.foldl step4 st).userNames) w
        = (lookupKey st.userNames w).or
            ((ts.find? (sightingPred4 w)).map fallbackName) := by
  induction ts with
  | nil => intro st; simp
  | cons t rest ih =>
    intro st
    rw [List.foldl_cons, ih]
    cases hw : walletOf t with
    | some w' =>
      have hn : (step4 st t).userNames
          = setName st.userNames w' (fallbackName t) := by
        simp only [step4, hw]
      by_cases hww : w' = w
      · subst hww
        have hpred : sightingPred4 w' t = true := by
          simp [sightingPred4, hw]
        rw [List.find?_cons_of_pos _ hpred, hn, lookupKey_setName_self,
          Option.or_assoc]
        simp
      · have hpred : ¬ sightingPred4 w t = true := by
          simp [sightingPred4, hw, hww]
        rw [List.find?_cons_of_neg _ hpred, hn,
          lookupKey_setName_ne _ _ _ _ hww]
    | none =>
      have hn : (step4 st t).userNames = st.userNames := by
        simp only [step4, hw]
      have hpred : ¬ sightingPred4 w t = true := by
        simp [sightingPred4, hw]
      rw [List.find?_cons_of_neg _ hpred, hn]

theorem processTrades4_eq (cutoff : Int) (ts : List Trade) :
    ∀ st : Scan4State,
      processTrades4 cutoff st ts
        = ((ts.takeWhile (fun t => decide (cutoff ≤ t.timestamp))).foldl step4 st,
           !(ts.all (fun t => decide (cutoff ≤ t.timestamp)))) := by
  induction ts with
  | nil => intro st; rfl
  | cons t rest ih =>
    intro st
    by_cases h : t.timestamp < cutoff
    · have h2 : ¬ cutoff ≤ t.timestamp := by omega
      simp [processTrades4, h, List.takeWhile_cons, List.all_cons, h2]
    · have h2 : cutoff ≤ t.timestamp := by omega
      simp [processTrades4, h, List.takeWhile_cons, List.all_cons, h2, ih]

/-- Claim C7: the stored display name of an actor is the one computed at
the actor's first in-window sighting by the fallback chain name →
pseudonym → "Anonymous", and later records never overwrite it: the
name map entry equals the fallback name of the first in-window record
carrying that wallet, in both the chunk2 scanner and the chunk4 scanner
(where only the records before the first out-of-window one are seen). -/
theorem display_name_first_sighting :
    (∀ (cutoff : Int) (ts : List Trade) (w : String),
       lookupKey ((processPage cutoff initScanState ts).userNames) w
         = ((ts.find? (sightingPred cutoff w)).map fallbackName))
    ∧ (∀ (cutoff : Int) (ts : List Trade) (w : String),
       lookupKey (((processTrades4 cutoff initScan4State ts).1).userNames) w
         = (((ts.takeWhile (fun t => decide (cutoff ≤ t.timestamp))).find?
              (sightingPred4 w)).map fallbackName)) := by
  constructor
  · intro cutoff ts w
    rw [processPage, lookup_names_foldl]
    rfl
  · intro cutoff ts w
    rw [processTrades4_eq, lookup_names_foldl4]
    rfl

/-- Claim C10: `scan_for_active_users` returns at the first record older
than the window cutoff: the record loop equals the fold of the per-trade
step over the longest all-in-window head of the page, records from the
first old one on (in-window or not) are never processed, the early flag
is raised exactly when an old record occurs, and a page whose processing
raises the flag makes the page loop return that state immediately,
fetching no further page. -/
theorem scan4_stops_at_first_old_record :
    (∀ (cutoff : Int) (st : Scan4State) (ts : List Trade),
       processTrades4 cutoff st ts
         = ((ts.takeWhile (fun t => decide (cutoff ≤ t.timestamp))).foldl step4 st,
            !(ts.all (fun t => decide (cutoff ≤ t.timestamp)))))
    ∧ (∀ (cutoff : Int) (maxScan : Nat) (feed : Nat → Page4) (fuel : Nat)
         (st st₁ : Scan4State) (k : Nat) (ts : List Trade),
       st.tradesScanned < maxScan → feed k = Page4.fetched ts →
       processTrades4 cutoff st ts = (st₁, true) →
       scan4Loop cutoff maxScan feed (fuel + 1) st k = st₁) := by
  constructor
  · intro cutoff st ts
    exact processTrades4_eq cutoff ts st
  · intro cutoff maxScan feed fuel st st₁ k ts hlt hfeed hpt
    cases ts with
    | nil =>
      have : (false : Bool) = true := congrArg Prod.snd hpt
      exact absurd this (by simp)
    | cons t rest =>
      simp only [scan4Loop, if_pos hlt, hfeed, hpt]

/-- Claim C10 witness: a concrete page starting with an out-of-window
record makes the chunk4 scan return its starting state at once. -/
theorem scan4_stops_at_first_old_record_witness :
    scan4Loop 10 100 (fun _ => Page4.fetched [tradeOld]) 3 initScan4State 0
      = initScan4State :=
  scan4_stops_at_first_old_record.2 10 100 (fun _ => Page4.fetched [tradeOld]) 2
    initScan4State initScan4State 0 [tradeOld] (by decide) rfl (by decide)

theorem mem_addUser (users : List String) (w w' : String) :
    w' ∈ addUser users w ↔ w' ∈ users ∨ w' = w := by
  by_cases h : users.contains w
  · rw [addUser, if_pos h]
    have hw : w ∈ users := by simpa using h
    constructor
    · exact Or.inl
    · rintro (h' | rfl)
      · exact h'
      · exact hw
  · rw [addUser, if_neg h]
    simp [List.mem_append]

theorem lookupKey_bumpCount_isSome (m : List (String × Nat)) (w w' : String) :
    (lookupKey (bumpCount m w) w').isSome
      = ((lookupKey m w').isSome || (w == w')) := by
  induction m with
  | nil =>
    by_cases hww : (w == w') = true <;>
      simp [bumpCount, lookupKey, hww]
  | cons kv rest ih =>
    rcases kv with ⟨k, v⟩
    by_cases hk : (k == w) = true
    · by_cases hk' : (k == w') = true
      · simp [bumpCount, lookupKey, hk, hk']
      · have : ¬ (w == w') = true := by
          intro hww
          exact hk' (by rw [eq_of_beq hk, eq_of_beq hww]; exact beq_self_eq_true w')
        simp [bumpCount, lookupKey, hk, hk', this]
    · by_cases hk' : (k == w') = true
      · simp [bumpCount, lookupKey, hk, hk']
      · simp [bumpCount, lookupKey, hk, hk', ih]

theorem bumpCount_val_ge_one (m : List (String × Nat)) (w : String)
    (hm : ∀ e ∈ m, 1 ≤ e.2) :
    ∀ e ∈ bumpCount m w, 1 ≤ e.2 := by
  induction m with
  | nil =>
    intro e he
    rw [bumpCount, List.mem_singleton] at he
    subst he
    exact le_refl 1
  | cons kv rest ih =>
    rcases kv with ⟨k, v⟩
    by_cases hk : (k == w) = true
    · intro e he
      rw [bumpCount, if_pos hk] at he
      rcases List.mem_cons.mp he with rfl | he'
      · exact Nat.succ_le_succ (Nat.zero_le v)
      · exact hm e (List.mem_cons_of_mem _ he')
    · intro e he
      rw [bumpCount, if_neg hk] at he
      rcases List.mem_cons.mp he with rfl | he'
      · exact hm (k, v) (List.mem_cons_self _ _)
      · exact ih (fun e' he'' => hm e' (List.mem_cons_of_mem _ he'')) e he'

theorem lookupKey_setName_isSome (m : List (String × String)) (w v w' : String) :
    (lookupKey (setName m w v) w').isSome
      = ((lookupKey m w').isSome || (w == w')) := by
  by_cases hww : w = w'
  · subst hww
    rw [lookupKey_setName_self]
    simp
  · rw [lookupKey_setName_ne _ _ _ _ hww]
    have : (w == w') = false := by simp [hww]
    simp [this]

/-- The invariant of claim C9: the active-users set, the key set of the
trade-count map and the key set of the display-name map coincide, and
every stored trade count is at least 1. -/
def accumsSynced (users : List String) (counts : List (String × Nat))
    (names : List (String × String)) : Prop :=
  (∀ w, w ∈ users ↔ containsKey counts w = true)
  ∧ (∀ w, w ∈ users ↔ containsKey names w = true)
  ∧ (∀ e ∈ counts, 1 ≤ e.2)

theorem accumsSynced_init : accumsSynced [] [] [] := by
  refine ⟨?_, ?_, ?_⟩ <;> simp [containsKey, lookupKey]

theorem accumsSynced_update (users : List String)
    (counts : List (String × Nat)) (names : List (String × String))
    (w nm : String) (h : accumsSynced users counts names) :
    accumsSynced (addUser users w) (bumpCount counts w)
      (setName names w nm) := by
  obtain ⟨h1, h2, h3⟩ := h
  refine ⟨?_, ?_, bumpCount_val_ge_one counts w h3⟩
  · intro w'
    rw [mem_addUser]
    show _ ↔ (lookupKey (bumpCount counts w) w').isSome = true
    rw [lookupKey_bumpCount_isSome, Bool.or_eq_true]
    constructor
    · rintro (hu | rfl)
      · exact Or.inl ((h1 w').mp hu)
      · exact Or.inr (beq_self_eq_true _)
    · rintro (hc | hb)
      · exact Or.inl ((h1 w').mpr hc)
      · exact Or.inr (eq_of_beq hb).symm
  · intro w'
    rw [mem_addUser]
    show _ ↔ (lookupKey (setName names w nm) w').isSome = true
    rw [lookupKey_setName_isSome, Bool.or_eq_true]
    constructor
    · rintro (hu | rfl)
      · exact Or.inl ((h2 w').mp hu)
      · exact Or.inr (beq_self_eq_true _)
    · rintro (hc | hb)
      · exact Or.inl ((h2 w').mpr hc)
      · exact Or.inr (eq_of_beq hb).symm

theorem accumsSynced_processTrade (cutoff : Int) (st : ScanState) (t : Trade)
    (h : accumsSynced st.activeUsers st.userTradeCounts st.userNames) :
    accumsSynced (processTrade cutoff st t).activeUsers
      (processTrade cutoff st t).userTradeCounts
      (processTrade cutoff st t).userNames := by
  simp only [processTrade]
  by_cases hts : cutoff ≤ t.timestamp
  · simp only [if_pos hts]
    cases hw : walletOf t with
    | some w => exact accumsSynced_update _ _ _ _ _ h
    | none => exact h
  · simp only [if_neg hts]
    exact h

theorem accumsSynced_processPage (cutoff : Int) (ts : List Trade) :
    ∀ st : ScanState,
      accumsSynced st.activeUsers st.userTradeCounts st.userNames →
      accumsSynced (processPage cutoff st ts).activeUsers
        (processPage cutoff st ts).userTradeCounts
        (processPage cutoff st ts).userNames := by
  induction ts with
  | nil => intro st h; exact h
  | cons t rest ih =>
    intro st h
    exact ih (processTrade cutoff st t) (accumsSynced_processTrade cutoff st t h)

theorem accumsSynced_step4 (st : Scan4State) (t : Trade)
    (h : accumsSynced st.activeUsers st.userTradeCounts st.userNames) :
    accumsSynced (step4 st t).activeUsers (step4 st t).userTradeCounts
      (step4 st t).userNames := by
  simp only [step4]
  cases hw : walletOf t with
  | some w => exact accumsSynced_update _ _ _ _ _ h
  | none => exact h

theorem accumsSynced_foldl_step4 (ts : List Trade) :
    ∀ st : Scan4State,
      accumsSynced st.activeUsers st.userTradeCounts st.userNames →
      accumsSynced (ts.foldl step4 st).activeUsers
        (ts.foldl step4 st).userTradeCounts
        (ts.foldl step4 st).userNames := by
  induction ts with
  | nil => intro st h; exact h
  | cons t rest ih =>
    intro st h
    exact ih (step4 st t) (accumsSynced_step4 st t h)

theorem accumsSynced_scanLoop (cutoff : Int) (feed : Nat → CallSpec) :
    ∀ (fuel : Nat) (ls : LoopState),
      accumsSynced ls.scan.activeUsers ls.scan.userTradeCounts
        ls.scan.userNames →
      accumsSynced ((scanLoop cutoff feed fuel ls).1.scan).activeUsers
        ((scanLoop cutoff feed fuel ls).1.scan).userTradeCounts
        ((scanLoop cutoff feed fuel ls).1.scan).userNames := by
  intro fuel
  induction fuel with
  | zero => intro ls h; exact h
  | succ fuel ih =>
    intro ls h
    rcases make_request_status_none_or_200 (feed ls.totalApiCalls).responses
        ls.currentDelay 5 with hst | hst
    · rw [scanLoop_succ_of_status_none cutoff feed fuel ls hst]
      by_cases hf : 5 ≤ ls.failedCalls + 1
      · rw [if_pos hf]; exact h
      · rw [if_neg hf]; exact ih _ h
    · cases hb : (feed ls.totalApiCalls).body with
      | badJson =>
        rw [scanLoop_succ_of_badJson cutoff feed fuel ls hst hb]
        exact ih _ h
      | trades ts =>
        cases ts with
        | nil => rw [scanLoop_succ_of_empty cutoff feed fuel ls hst hb]; exact h
        | cons t ts' =>
          rw [scanLoop_succ_of_trades cutoff feed fuel ls t ts' hst hb]
          by_cases hw : 2500 ≤ (processPage cutoff ls.scan (t :: ts')).consecutiveOldTrades
          · rw [if_pos hw]
            exact accumsSynced_processPage cutoff (t :: ts') ls.scan h
          · rw [if_neg hw]
            exact ih _ (accumsSynced_processPage cutoff (t :: ts') ls.scan h)

/-- Claim C9: at every point of a scan the set of active users, the key
set of the trade-count map and the key set of the display-name map are
equal and every stored count is at least 1 — after any list of
processed records in the chunk2 scanner, at the end of any run of its
page loop, and after any page of the chunk4 scanner. -/
theorem accumulators_in_sync :
    (∀ (cutoff : Int) (ts : List Trade),
       accumsSynced (processPage cutoff initScanState ts).activeUsers
         (processPage cutoff initScanState ts).userTradeCounts
         (processPage cutoff initScanState ts).userNames)
    ∧ (∀ (cutoff : Int) (feed : Nat → CallSpec) (fuel : Nat),
       accumsSynced ((scanLoop cutoff feed fuel initLoopState).1.scan).activeUsers
         ((scanLoop cutoff feed fuel initLoopState).1.scan).userTradeCounts
         ((scanLoop cutoff feed fuel initLoopState).1.scan).userNames)
    ∧ (∀ (cutoff : Int) (ts : List Trade),
       accumsSynced ((processTrades4 cutoff initScan4State ts).1).activeUsers
         ((processTrades4 cutoff initScan4State ts).1).userTradeCounts
         ((processTrades4 cutoff initScan4State ts).1).userNames) := by
  refine ⟨?_, ?_, ?_⟩
  · intro cutoff ts
    exact accumsSynced_processPage cutoff ts initScanState accumsSynced_init
  · intro cutoff feed fuel
    exact accumsSynced_scanLoop cutoff feed fuel initLoopState accumsSynced_init
  · intro cutoff ts
    rw [processTrades4_eq]
    exact accumsSynced_foldl_step4 _ initScan4State accumsSynced_init

/-- Claim C9 witness: on a concrete in-window trade, membership in the
active-user set coincides with presence in the trade-count map. -/
theorem accumulators_in_sync_witness :
    "w1" ∈ (processPage 10 initScanState [tradeNew]).activeUsers
      ↔ containsKey (processPage 10 initScanState [tradeNew]).userTradeCounts
          "w1" = true :=
  (accumulators_in_sync.1 10 [tradeNew]).1 "w1"

/-- Whether every numeric field of the record coerces without raising
(chunk3 wraps the four coercions in one `try`). -/
def recordOk (p : Position) : Bool :=
  (coerceField p.cashPnl).isSome && (coerceField p.percentPnl).isSome
  && (coerceField p.initialValue).isSome && (coerceField p.currentValue).isSome

/-- The value one field of a record contributes to the running totals:
its own coerced value when every field of the record coerces, and 0
when any field of the record raises. -/
def fieldContrib (p : Position) (raw : RawNum) : ℚ :=
  if recordOk p then (coerceField raw).getD 0 else 0

theorem normalizePosition_eq (p : Position) :
    normalizePosition p
      = (fieldContrib p p.cashPnl, fieldContrib p p.percentPnl,
         fieldContrib p p.initialValue, fieldContrib p p.currentValue) := by
  rcases p with ⟨a, b, c, d⟩
  simp only [normalizePosition, fieldContrib, recordOk]
  cases ha : coerceField a <;> cases hb : coerceField b <;>
    cases hc : coerceField c <;> cases hd : coerceField d <;>
      simp [ha, hb, hc, hd]

theorem accumPosition_totals (s : ProfitSummary) (p : Position) :
    ((accumPosition s p).totalCashPnl
      = s.totalCashPnl + (normalizePosition p).1)
    ∧ ((accumPosition s p).totalPercentPnl
      = s.totalPercentPnl + (normalizePosition p).2.1)
    ∧ ((accumPosition s p).totalInitialValue
      = s.totalInitialValue + (normalizePosition p).2.2.1)
    ∧ ((accumPosition s p).totalCurrentValue
      = s.totalCurrentValue + (normalizePosition p).2.2.2) := by
  rcases hn : normalizePosition p with ⟨a, b, c, d⟩
  simp only [accumPosition, hn]
  split_ifs <;> exact ⟨rfl, rfl, rfl, rfl⟩

theorem foldl_accumPosition_totals (ps : List Position) :
    ∀ s : ProfitSummary,
      ((ps.foldl accumPosition s).totalCashPnl
        = s.totalCashPnl + (ps.map fun p => (normalizePosition p).1).sum)
      ∧ ((ps.foldl accumPosition s).totalPercentPnl
        = s.totalPercentPnl + (ps.map fun p => (normalizePosition p).2.1).sum)
      ∧ ((ps.foldl accumPosition s).totalInitialValue
        = s.totalInitialValue + (ps.map fun p => (normalizePosition p).2.2.1).sum)
      ∧ ((ps.foldl accumPosition s).totalCurrentValue
        = s.totalCurrentValue + (ps.map fun p => (normalizePosition p).2.2.2).sum) := by
  induction ps with
  | nil => intro s; simp
  | cons p rest ih =>
    intro s
    rw [List.foldl_cons]
    obtain ⟨e1, e2, e3, e4⟩ := ih (accumPosition s p)
    obtain ⟨a1, a2, a3, a4⟩ := accumPosition_totals s p
    refine ⟨?_, ?_, ?_, ?_⟩ <;>
      simp only [e1, e2, e3, e4, a1, a2, a3, a4, List.map_cons,
        List.sum_cons] <;> ring

/-- Claim C4 (amended): a field whose raw value is null, empty, falsy or
absent contributes 0 while the other fields of the same record still
contribute their own coerced values, as long as no field of the record
raises in `float(...)`; but the four coercions share one `try`, so a
record containing any truthy non-numeric field (e.g. a non-numeric
string) has all four of its fields zeroed together.  Each total is the
sum of these per-record contributions. -/
theorem field_normalization_amended :
    ∀ ps : List Position,
      ((calculate_user_profit ps).totalCashPnl
        = (ps.map fun p => fieldContrib p p.cashPnl).sum)
      ∧ ((calculate_user_profit ps).totalPercentPnl
        = (ps.map fun p => fieldContrib p p.percentPnl).sum)
      ∧ ((calculate_user_profit ps).totalInitialValue
        = (ps.map fun p => fieldContrib p p.initialValue).sum)
      ∧ ((calculate_user_profit ps).totalCurrentValue
        = (ps.map fun p => fieldContrib p p.currentValue).sum) := by
  intro ps
  by_cases hps : ps = []
  · subst hps
    exact ⟨rfl, rfl, rfl, rfl⟩
  · have hne : ps.isEmpty = false := by
      cases ps
      · exact absurd rfl hps
      · rfl
    obtain ⟨e1, e2, e3, e4⟩ := foldl_accumPosition_totals ps emptySummary
    simp only [calculate_user_profit, hne, Bool.false_eq_true, if_false]
    simp only [emptySummary]
    simp only [emptySummary] at e1 e2 e3 e4
    refine ⟨?_, ?_, ?_, ?_⟩ <;>
      simp only [e1, e2, e3, e4, normalizePosition_eq] <;>
      simp

def posMixed : Position := ⟨.badStr, .num 5, .num 3, .num 4⟩

/-- Claim C4 counterexample: in a record whose `cashPnl` is a truthy
non-numeric string, the `percentPnl` field coerces to 5 on its own,
yet the summary computed by `calculate_user_profit` accumulates 0 for
it — the fields are not normalized independently. -/
theorem field_normalization_independence_cex :
    coerceField posMixed.percentPnl = some 5
    ∧ (calculate_user_profit [posMixed]).totalPercentPnl = 0 := by
  constructor
  · rfl
  · norm_num [calculate_user_profit, posMixed, accumPosition,
      normalizePosition, coerceField, emptySummary]

/-- Claim C3 counterexample: enrichment for actor "actorA" fails (the
positions fetch does not return 200), its profit is therefore 0, and
the profitable-user list built with threshold 0 does not include the
actor: the strict `profit > threshold` filter drops it silently, and no
enrichment-failed marker exists in the produced data. -/
theorem enrichment_failure_threshold_zero_cex :
    find_profitable_users [("actorA", 3)] [("actorA", "Alice")]
      (fun _ => analyze_user_profit FetchOutcome.httpError) 0 none = [] := by
  decide

/-- Claim C3 (amended): a fetch failure while enriching one actor is
non-fatal — that actor's profit is 0 (both for a non-200 response and
for a raised exception) and enrichment proceeds to the following
actors, which still appear in the result; but every entry of the
profitable-user list has profit strictly above the threshold, so a
report built with threshold 0 excludes the failed actor (profit 0)
instead of including it, and no enrichment-failed marker exists. -/
theorem enrichment_failure_nonfatal_amended :
    (analyze_user_profit FetchOutcome.httpError = 0
      ∧ analyze_user_profit FetchOutcome.exn = 0)
    ∧ (find_profitable_users [("actorA", 3), ("actorB", 2)]
         [("actorA", "Alice")]
         (fun w => if w == "actorB" then (100:ℚ) else 0) 0 none
       = [⟨"actorB", 100, 2, "Anonymous"⟩])
    ∧ (∀ (counts : List (String × Nat)) (names : List (String × String))
         (profitOf : String → ℚ) (mx : Option Nat) (u : UserData),
       u ∈ find_profitable_users counts names profitOf 0 mx →
       0 < u.profit) := by
  refine ⟨⟨rfl, rfl⟩, by decide, ?_⟩
  intro counts names profitOf mx u hu
  simp only [find_profitable_users, List.mem_filterMap] at hu
  obtain ⟨p, hp, hpu⟩ := hu
  by_cases h : (0:ℚ) < profitOf p.1
  · rw [if_pos h] at hpu
    have he := Option.some.inj hpu
    subst he
    exact h
  · rw [if_neg h] at hpu
    exact absurd hpu (by simp)

/-- Claim C3 witness: a concrete actor whose profit is above the
threshold appears in the list and its profit is positive. -/
theorem enrichment_failure_nonfatal_amended_witness :
    (0:ℚ) < (UserData.mk "actorB" 100 2 "Anonymous").profit :=
  enrichment_failure_nonfatal_amended.2.2 [("actorB", 2)] [] (fun _ => 100)
    none (UserData.mk "actorB" 100 2 "Anonymous") (by decide)

def badJsonFeed : Nat → CallSpec :=
  fun _ => ⟨fun _ => HttpOutcome.ok, BodyResult.badJson⟩

def exnCallFeed : Nat → CallSpec :=
  fun _ => ⟨fun _ => HttpOutcome.exn, BodyResult.trades []⟩

/-- Claim C6 (amended): when `make_request_with_backoff` returns None
the scanner increments the failure counter, stops in the failure-budget
state as soon as the counter reaches 5, and otherwise skips the failed
page by advancing the offset by the page size (that offset is not
refetched in this branch); but when a 200 response's body fails to
decode, the counter is incremented without any budget check and the
offset is not advanced, so the same page is fetched again. -/
theorem scanner_failure_handling_amended :
    ∀ (cutoff : Int) (feed : Nat → CallSpec) (fuel : Nat) (ls : LoopState),
      ((make_request_with_backoff (feed ls.totalApiCalls).responses
          ls.currentDelay 5).status = none →
        scanLoop cutoff feed (fuel + 1) ls =
          (if 5 ≤ ls.failedCalls + 1 then
            ({ ls with totalApiCalls := ls.totalApiCalls + 1,
                       currentDelay := (make_request_with_backoff
                         (feed ls.totalApiCalls).responses
                         ls.currentDelay 5).finalDelay,
                       failedCalls := ls.failedCalls + 1 },
             StopReason.failureBudget)
          else
            scanLoop cutoff feed fuel
              { ls with totalApiCalls := ls.totalApiCalls + 1,
                        currentDelay := (make_request_with_backoff
                          (feed ls.totalApiCalls).responses
                          ls.currentDelay 5).finalDelay,
                        failedCalls := ls.failedCalls + 1,
                        offset := ls.offset + pageLimit }))
      ∧ ((make_request_with_backoff (feed ls.totalApiCalls).responses
            ls.currentDelay 5).status = some 200 →
         (feed ls.totalApiCalls).body = BodyResult.badJson →
          scanLoop cutoff feed (fuel + 1) ls =
            scanLoop cutoff feed fuel
              { ls with totalApiCalls := ls.totalApiCalls + 1,
                        currentDelay := (make_request_with_backoff
                          (feed ls.totalApiCalls).responses
                          ls.currentDelay 5).finalDelay,
                        successfulCalls := ls.successfulCalls + 1,
                        failedCalls := ls.failedCalls + 1 }) := by
  intro cutoff feed fuel ls
  exact ⟨scanLoop_succ_of_status_none cutoff feed fuel ls,
    fun h hb => scanLoop_succ_of_badJson cutoff feed fuel ls h hb⟩

/-- Claim C6 witness: the failed-call branch at the initial state takes
the skip path, and the bad-body branch continues without advancing the
offset. -/
theorem scanner_failure_handling_amended_witness :
    (scanLoop 0 exnCallFeed 1 initLoopState =
      (if 5 ≤ initLoopState.failedCalls + 1 then
        ({ initLoopState with
             totalApiCalls := initLoopState.totalApiCalls + 1,
             currentDelay := (make_request_with_backoff
               (exnCallFeed initLoopState.totalApiCalls).responses
               initLoopState.currentDelay 5).finalDelay,
             failedCalls := initLoopState.failedCalls + 1 },
         StopReason.failureBudget)
      else
        scanLoop 0 exnCallFeed 0
          { initLoopState with
              totalApiCalls := initLoopState.totalApiCalls + 1,
              currentDelay := (make_request_with_backoff
                (exnCallFeed initLoopState.totalApiCalls).responses
                initLoopState.currentDelay 5).finalDelay,
              failedCalls := initLoopState.failedCalls + 1,
              offset := initLoopState.offset + pageLimit }))
    ∧ (scanLoop 0 badJsonFeed 1 initLoopState =
        scanLoop 0 badJsonFeed 0
          { initLoopState with
              totalApiCalls := initLoopState.totalApiCalls + 1,
              currentDelay := (make_request_with_backoff
                (badJsonFeed initLoopState.totalApiCalls).responses
                initLoopState.currentDelay 5).finalDelay,
              successfulCalls := initLoopState.successfulCalls + 1,
              failedCalls := initLoopState.failedCalls + 1 }) :=
  ⟨(scanner_failure_handling_amended 0 exnCallFeed 0 initLoopState).1
      (by decide),
   (scanner_failure_handling_amended 0 badJsonFeed 0 initLoopState).2
      (by decide) rfl⟩

/-- Claim C6 counterexample: against an upstream whose every page is a
200 response with an undecodable body, six iterations of the scan leave
the failure counter at 6 without entering the failure-budget stop, and
the offset still at 0 — the failed page is refetched rather than
skipped, and reaching the budget of 5 does not stop the scan. -/
theorem scanner_json_failure_cex :
    ((scanLoop 0 badJsonFeed 6 initLoopState).2 = StopReason.fuelOut)
    ∧ ((scanLoop 0 badJsonFeed 6 initLoopState).1.failedCalls = 6)
    ∧ ((scanLoop 0 badJsonFeed 6 initLoopState).1.offset = 0) := by
  decide

theorem mem_insertGeBy {α β : Type} [LinearOrder β] (k : α → β) (x y : α) :
    ∀ l : List α, y ∈ insertGeBy k x l ↔ y = x ∨ y ∈ l := by
  intro l
  induction l with
  | nil => simp [insertGeBy]
  | cons z zs ih =>
    simp only [insertGeBy]
    split
    · simp [List.mem_cons]
    · rw [List.mem_cons, ih, List.mem_cons]
      tauto

theorem mem_sortDescBy {α β : Type} [LinearOrder β] (k : α → β) (y : α) :
    ∀ l : List α, y ∈ sortDescBy k l ↔ y ∈ l := by
  intro l
  induction l with
  | nil => simp [sortDescBy]
  | cons x xs ih =>
    show y ∈ insertGeBy k x (sortDescBy k xs) ↔ _
    rw [mem_insertGeBy, ih, List.mem_cons]

theorem pairwise_key_insertGeBy {α β : Type} [LinearOrder β] (k : α → β)
    (x : α) :
    ∀ l : List α, l.Pairwise (fun a b => k b ≤ k a) →
      (insertGeBy k x l).Pairwise (fun a b => k b ≤ k a) := by
  intro l
  induction l with
  | nil => intro _; simp [insertGeBy]
  | cons y ys ih =>
    intro hl
    rw [List.pairwise_cons] at hl
    obtain ⟨hy, hys⟩ := hl
    simp only [insertGeBy]
    split
    · rename_i hk
      rw [List.pairwise_cons]
      constructor
      · intro z hz
        rcases List.mem_cons.mp hz with rfl | hz'
        · exact hk
        · exact le_trans (hy z hz') hk
      · rw [List.pairwise_cons]
        exact ⟨hy, hys⟩
    · rename_i hk
      push_neg at hk
      rw [List.pairwise_cons]
      constructor
      · intro z hz
        rcases (mem_insertGeBy k x z ys).mp hz with rfl | hz'
        · exact le_of_lt hk
        · exact hy z hz'
      · exact ih hys

theorem pairwise_key_sortDescBy {α β : Type} [LinearOrder β] (k : α → β)
    (l : List α) :
    (sortDescBy k l).Pairwise (fun a b => k b ≤ k a) := by
  induction l with
  | nil => simp [sortDescBy]
  | cons x xs ih => exact pairwise_key_insertGeBy k x _ ih

theorem pairwise_insertGeBy_stable {α β : Type} [LinearOrder β] (k : α → β)
    (R : α → α → Prop) (x : α) :
    ∀ l : List α,
      l.Pairwise (fun a b => k a = k b → R a b) →
      (∀ y ∈ l, k x = k y → R x y) →
      (insertGeBy k x l).Pairwise (fun a b => k a = k b → R a b) := by
  intro l
  induction l with
  | nil => intro _ _; simp [insertGeBy]
  | cons y ys ih =>
    intro hl hx
    rw [List.pairwise_cons] at hl
    obtain ⟨hy, hys⟩ := hl
    simp only [insertGeBy]
    split
    · rw [List.pairwise_cons]
      refine ⟨?_, ?_⟩
      · intro z hz
        exact hx z hz
      · rw [List.pairwise_cons]
        exact ⟨hy, hys⟩
    · rename_i hk
      push_neg at hk
      rw [List.pairwise_cons]
      refine ⟨?_, ?_⟩
      · intro z hz hkz
        rcases (mem_insertGeBy k x z ys).mp hz with rfl | hz'
        · exact absurd hkz (ne_of_gt hk)
        · exact hy z hz' hkz
      · exact ih hys (fun z hz => hx z (List.mem_cons_of_mem _ hz))

theorem pairwise_sortDescBy_stable {α β : Type} [LinearOrder β] (k : α → β)
    (R : α → α → Prop) :
    ∀ l : List α, l.Pairwise (fun a b => k a = k b → R a b) →
      (sortDescBy k l).Pairwise (fun a b => k a = k b → R a b) := by
  intro l
  induction l with
  | nil => intro _; simp [sortDescBy]
  | cons x xs ih =>
    intro hl
    rw [List.pairwise_cons] at hl
    obtain ⟨hx, hxs⟩ := hl
    exact pairwise_insertGeBy_stable k R x (sortDescBy k xs) (ih hxs)
      (fun y hy => hx y ((mem_sortDescBy k y xs).mp hy))

theorem find_profitable_users_count_sorted
    (counts : List (String × Nat)) (names : List (String × String))
    (profitOf : String → ℚ) (threshold : ℚ) (mx : Option Nat) :
    (find_profitable_users counts names profitOf threshold mx).Pairwise
      (fun u v => v.trade_count ≤ u.trade_count) := by
  have hsorted : (sortDescBy (fun p : String × Nat => p.2) counts).Pairwise
      (fun p q => q.2 ≤ p.2) :=
    pairwise_key_sortDescBy _ counts
  have key : ∀ toCheck : List (String × Nat),
      toCheck.Pairwise (fun p q => q.2 ≤ p.2) →
      (toCheck.filterMap (fun p =>
        if threshold < profitOf p.1 then
          some (UserData.mk p.1 (profitOf p.1) p.2
            ((lookupKey names p.1).getD "Anonymous"))
        else none)).Pairwise
        (fun u v => v.trade_count ≤ u.trade_count) := by
    intro toCheck h
    refine h.filterMap _ ?_
    intro p q hpq u hu v hv
    have hu' : u.trade_count = p.2 := by
      by_cases hc : threshold < profitOf p.1
      · rw [if_pos hc] at hu
        rw [← Option.some.inj (Option.mem_def.mp hu)]
      · rw [if_neg hc] at hu
        exact absurd hu (Option.not_mem_none u)
    have hv' : v.trade_count = q.2 := by
      by_cases hc : threshold < profitOf q.1
      · rw [if_pos hc] at hv
        rw [← Option.some.inj (Option.mem_def.mp hv)]
      · rw [if_neg hc] at hv
        exact absurd hv (Option.not_mem_none v)
    rw [hu', hv']
    exact hpq
  cases mx with
  | none => exact key _ hsorted
  | some n =>
    by_cases hn : n = 0
    · simp only [find_profitable_users, if_pos hn]
      exact key _ hsorted
    · simp only [find_profitable_users, if_neg hn]
      exact key _ hsorted.take

/-- Claim C5 (amended): the ranked report is sorted descending by
profit, and among entries of equal profit the one with the higher
trade count comes first (the stable profit sort preserves the
trade-count-descending order in which the profitable list was built);
the remaining ties keep the insertion order of the scanner's map — the
first-sighting order — not the actor identifier. -/
theorem report_order_amended :
    ∀ (counts : List (String × Nat)) (names : List (String × String))
      (profitOf : String → ℚ) (threshold : ℚ) (mx : Option Nat),
      ((rank_profitable_users
          (find_profitable_users counts names profitOf threshold mx)).Pairwise
        (fun u v => v.profit ≤ u.profit))
      ∧ ((rank_profitable_users
          (find_profitable_users counts names profitOf threshold mx)).Pairwise
        (fun u v => u.profit = v.profit → v.trade_count ≤ u.trade_count)) := by
  intro counts names profitOf threshold mx
  constructor
  · exact pairwise_key_sortDescBy _ _
  · refine pairwise_sortDescBy_stable _ _ _ ?_
    refine List.Pairwise.imp ?_
      (find_profitable_users_count_sorted counts names profitOf threshold mx)
    intro a b h _
    exact h

/-- Claim C5 witness: the amended ordering properties hold at a
concrete input with distinct profits and trade counts. -/
theorem report_order_amended_witness :
    (rank_profitable_users (find_profitable_users [("b", 1), ("a", 2)] []
        (fun _ => 5) 0 none)).Pairwise (fun u v => v.profit ≤ u.profit) :=
  (report_order_amended [("b", 1), ("a", 2)] [] (fun _ => 5) 0 none).1

/-- Claim C5 counterexample: two actors with equal profit and equal
trade count appear in the report in the insertion order of the
scanner's map, not in actor-identifier order — swapping the insertion
order of "a" and "b" swaps the output order, so the remaining tie is
not broken by the actor identifier. -/
theorem report_tie_order_cex :
    ((rank_profitable_users (find_profitable_users [("b", 1), ("a", 1)] []
        (fun _ => 5) 0 none)).map (fun u => u.address) = ["b", "a"])
    ∧ ((rank_profitable_users (find_profitable_users [("a", 1), ("b", 1)] []
        (fun _ => 5) 0 none)).map (fun u => u.address) = ["a", "b"]) := by
  decide

end Polymarket